import Mathlib

/-!
Verification development for the RRRv1 position-management core
(`backend/position_manager.py`, `backend/database.py`,
`backend/position_endpoints.py`, `backend/exchange_reconciler.py`,
`backend/exchange_integration.py`).

Python floats are modelled as rationals, Python `Optional` as `Option`,
the in-memory `self.positions` dict as an insertion-ordered association
list, and the SQL statements as explicit `StoreWrite` records (plus a
column-level model of the schema for the persistence layer).
-/

namespace RRRv1

/-- Position lifecycle states (`PositionStatus` enum). -/
inductive PositionStatus where
  | opening
  | open_
  | closing
  | closed
  | liquidated
  | reduced
deriving DecidableEq

/-- Reconciliation result states (`ReconciliationStatus` enum). -/
inductive ReconciliationStatus where
  | synced
  | drift_detected
  | sync_failed
  | pending_sync
deriving DecidableEq

/-- The `Position` dataclass. Floats become rationals, `Optional[...]`
becomes `Option`. -/
structure Position where
  asset : String
  entry_price : ℚ
  current_price : ℚ
  size : ℚ
  leverage : ℚ
  venue : String
  status : PositionStatus
  liquidation_price : Option ℚ
  opened_at : Option String
  closed_at : Option String
  updated_at : Option String
  last_reconciled_at : Option String
  reconciliation_status : ReconciliationStatus
  exchange_position_id : Option String
  stop_loss : Option ℚ
  take_profit_targets : Option (List ℚ)
deriving DecidableEq

/-- A `Position` built with the dataclass defaults
(`status=OPEN`, `reconciliation_status=PENDING_SYNC`, optionals `None`). -/
def mkPosition (asset : String) (entry_price current_price size leverage : ℚ)
    (venue : String) : Position :=
  { asset := asset
    entry_price := entry_price
    current_price := current_price
    size := size
    leverage := leverage
    venue := venue
    status := PositionStatus.open_
    liquidation_price := none
    opened_at := none
    closed_at := none
    updated_at := none
    last_reconciled_at := none
    reconciliation_status := ReconciliationStatus.pending_sync
    exchange_position_id := none
    stop_loss := none
    take_profit_targets := none }

/-- The in-memory `self.positions` dict (insertion-ordered, keyed by asset). -/
abbrev Ledger := List (String × Position)

/-- Dict lookup: `self.positions.get(asset)`. -/
def ledgerGet (l : Ledger) (a : String) : Option Position :=
  (l.find? (fun kv => kv.1 == a)).map (fun kv => kv.2)

/-- Dict membership: `asset in self.positions`. -/
def ledgerContains (l : Ledger) (a : String) : Bool :=
  l.any (fun kv => kv.1 == a)

/-- Dict assignment `self.positions[k] = v`: replaces in place if the key
exists, otherwise appends (Python dicts keep insertion order). -/
def dictInsert (l : Ledger) (k : String) (v : Position) : Ledger :=
  if l.any (fun kv => kv.1 == k) then
    l.map (fun kv => if kv.1 == k then (k, v) else kv)
  else
    l ++ [(k, v)]

/-- Dict deletion `del self.positions[k]`. -/
def dictRemove (l : Ledger) (k : String) : Ledger :=
  l.filter (fun kv => !(kv.1 == k))

/-- Rows appended to the `position_history` table. -/
inductive HistoryEvent where
  | opened (asset : String)
  | updated (asset : String)
  | reduced (asset : String) (old_size new_size reduced_amount partial_pnl reduction_price : ℚ)
  | closed (asset : String) (close_price realized_pnl : ℚ)
deriving DecidableEq

/-- A SQL write the manager issues against the Store inside one transaction. -/
inductive StoreWrite where
  | positionsUpsert (p : Position)
  | positionsUpdate (asset : String) (p : Position)
  | historyInsert (e : HistoryEvent)
deriving DecidableEq

/-- Python truthiness test `not x` for an `Optional[str]`:
true for `None` and for the empty string. -/
def pyFalsyStr (o : Option String) : Bool :=
  match o with
  | none => true
  | some s => s == ""

/-- Timestamp stamping done by `add_position`: set `opened_at` to now when
unset, always refresh `updated_at`. -/
def stampPosition (p : Position) (now : String) : Position :=
  { p with
    opened_at := if pyFalsyStr p.opened_at then some now else p.opened_at
    updated_at := some now }

/-- `PositionManager.add_position`: unconditionally assigns into the dict
(add-or-update), then issues an `INSERT OR REPLACE` on `positions` plus a
history insert whose event type is `opened` when `last_reconciled_at` is
unset and `updated` otherwise. -/
def add_position (l : Ledger) (p : Position) (now : String) :
    Ledger × List StoreWrite :=
  let p1 := stampPosition p now
  (dictInsert l p.asset p1,
   [StoreWrite.positionsUpsert p1,
    StoreWrite.historyInsert
      (if pyFalsyStr p.last_reconciled_at then HistoryEvent.opened p.asset
       else HistoryEvent.updated p.asset)])

/-- `PositionManager.close_position`: returns `none` (Python `None`) with no
writes when the asset is absent; otherwise records realized PnL
`(close_price - entry_price) * size`, marks the position CLOSED, deletes it
from the dict, and issues an UPDATE plus a history insert. -/
def close_position (l : Ledger) (asset : String) (close_price : ℚ) (now : String) :
    Option Position × Ledger × List StoreWrite :=
  match ledgerGet l asset with
  | none => (none, l, [])
  | some position =>
    let realized_pnl := (close_price - position.entry_price) * position.size
    let p1 := { position with
      current_price := close_price
      status := PositionStatus.closed
      closed_at := some now
      updated_at := some now }
    (some p1, dictRemove l asset,
     [StoreWrite.positionsUpdate asset p1,
      StoreWrite.historyInsert (HistoryEvent.closed asset close_price realized_pnl)])

/-- `PositionManager.reduce_position`: returns `none` with no writes when the
asset is absent; clamps `reduction_size` to `position.size` when it exceeds
it (a signed comparison), records partial PnL on the clamped amount, updates
size/price/status (CLOSED when the new size is ≤ 0, REDUCED otherwise) and
keeps the entry in the dict. -/
def reduce_position (l : Ledger) (asset : String) (reduction_size reduction_price : ℚ)
    (now : String) : Option Position × Ledger × List StoreWrite :=
  match ledgerGet l asset with
  | none => (none, l, [])
  | some position =>
    let clamped := if reduction_size > position.size then position.size else reduction_size
    let partial_pnl := (reduction_price - position.entry_price) * clamped
    let old_size := position.size
    let new_size := position.size - clamped
    let p1 := { position with
      size := new_size
      current_price := reduction_price
      updated_at := some now
      status := if new_size ≤ 0 then PositionStatus.closed else PositionStatus.reduced
      closed_at := if new_size ≤ 0 then some now else position.closed_at }
    (some p1, dictInsert l asset p1,
     [StoreWrite.positionsUpdate asset p1,
      StoreWrite.historyInsert
        (HistoryEvent.reduced asset old_size new_size clamped partial_pnl reduction_price)])

/-- Remote position data from an exchange snapshot (`exchange_positions`
dict values); the code reads fields with `.get(..., default)`, so each field
may be absent. -/
structure ExchangePos where
  size : Option ℚ
  current_price : Option ℚ
  position_id : Option String
deriving DecidableEq

/-- Merged venue snapshot keyed by asset. -/
abbrev ExchangeSnapshot := List (String × ExchangePos)

/-- Snapshot lookup `exchange_positions[asset]` / `asset in exchange_positions`. -/
def snapshotGet (ex : ExchangeSnapshot) (a : String) : Option ExchangePos :=
  (ex.find? (fun kv => kv.1 == a)).map (fun kv => kv.2)

/-- Size tolerance test: `abs(local.size - exchange.get('size', 0)) < 0.0001`. -/
def size_match (local_pos : Position) (ep : ExchangePos) : Bool :=
  decide (|local_pos.size - ep.size.getD 0| < 1 / 10000)

/-- Price tolerance test:
`abs(local.current_price - exchange.get('current_price', 0)) < 0.01`. -/
def price_match (local_pos : Position) (ep : ExchangePos) : Bool :=
  decide (|local_pos.current_price - ep.current_price.getD 0| < 1 / 100)

/-- Classification of one ledger entry against the snapshot: `true` exactly
when the asset is present remotely and both tolerance tests pass. -/
def entrySynced (ex : ExchangeSnapshot) (asset : String) (local_pos : Position) : Bool :=
  match snapshotGet ex asset with
  | none => false
  | some ep => size_match local_pos ep && price_match local_pos ep

/-- Per-entry mutation done by `reconcile_with_exchange`: sets
`reconciliation_status` (and `last_reconciled_at` when synced), and copies
`position_id` into `exchange_position_id` when the snapshot carries one.
It never touches `size` or `current_price`. -/
def reconcileEntry (ex : ExchangeSnapshot) (now : String) (asset : String)
    (local_pos : Position) : Position :=
  match snapshotGet ex asset with
  | none => { local_pos with reconciliation_status := ReconciliationStatus.drift_detected }
  | some ep =>
    let base :=
      if size_match local_pos ep && price_match local_pos ep then
        { local_pos with
          reconciliation_status := ReconciliationStatus.synced
          last_reconciled_at := some now }
      else
        { local_pos with reconciliation_status := ReconciliationStatus.drift_detected }
    match ep.position_id with
    | some pid => { base with exchange_position_id := some pid }
    | none => base

/-- `PositionManager.reconcile_with_exchange`: returns the classification
triple `(synced, drifts, missing)` (each in iteration order) together with
the annotated ledger. -/
def reconcile_with_exchange (l : Ledger) (ex : ExchangeSnapshot) (now : String) :
    (List String × List String × List String) × Ledger :=
  let synced := (l.filter (fun kv => entrySynced ex kv.1 kv.2)).map (fun kv => kv.1)
  let drifts := (l.filter (fun kv => !(entrySynced ex kv.1 kv.2))).map (fun kv => kv.1)
  let missing := (ex.map (fun kv => kv.1)).filter (fun a => !(ledgerContains l a))
  ((synced, drifts, missing), l.map (fun kv => (kv.1, reconcileEntry ex now kv.1 kv.2)))

/-- Python truthiness test `not x` for an `Optional[float]`:
true for `None` and for `0.0`. -/
def pyFalsyRat (o : Option ℚ) : Bool :=
  match o with
  | none => true
  | some v => v == 0

/-- `Position.calculate_liquidation_distance`: sentinel `999.0` when
`liquidation_price` is falsy (`None` or `0`) or `current_price` is `0`,
otherwise `((current_price - liquidation_price) / current_price) * 100`. -/
def calculate_liquidation_distance (p : Position) : ℚ :=
  if pyFalsyRat p.liquidation_price || p.current_price == 0 then 999
  else ((p.current_price - p.liquidation_price.getD 0) / p.current_price) * 100

/-- `Position.is_liquidation_risk`: liquidation distance strictly below the
threshold. -/
def is_liquidation_risk (p : Position) (threshold_pct : ℚ) : Bool :=
  decide (calculate_liquidation_distance p < threshold_pct)

/-- HTTP errors raised by the FastAPI endpoints in `position_endpoints.py`. -/
inductive HTTPError where
  | notFound (detail : String)
  | serverError (detail : String)
deriving DecidableEq

/-- The `/api/positions/{asset}/close` endpoint: a `None` result from the
manager is surfaced as HTTP 404. -/
def close_position_endpoint (l : Ledger) (asset : String) (close_price : ℚ)
    (now : String) : Except HTTPError (Position × Ledger × List StoreWrite) :=
  match close_position l asset close_price now with
  | (none, _, _) => Except.error (HTTPError.notFound ("Position " ++ asset ++ " not found"))
  | (some p, l1, w) => Except.ok (p, l1, w)

/-- The `/api/positions/{asset}/reduce` endpoint: a `None` result from the
manager is surfaced as HTTP 404. -/
def reduce_position_endpoint (l : Ledger) (asset : String)
    (reduction_size reduction_price : ℚ) (now : String) :
    Except HTTPError (Position × Ledger × List StoreWrite) :=
  match reduce_position l asset reduction_size reduction_price now with
  | (none, _, _) => Except.error (HTTPError.notFound ("Position " ++ asset ++ " not found"))
  | (some p, l1, w) => Except.ok (p, l1, w)

/-- Columns of the `positions` table as created by
`TradingDatabase._init_db` in `database.py`. -/
def positionsTableColumns : List String :=
  ["asset", "entry_price", "current_price", "size", "leverage", "venue",
   "liquidation_price", "opened_at", "updated_at", "last_reconciled_at"]

/-- Columns named by `add_position`'s `INSERT OR REPLACE INTO positions`. -/
def addPositionInsertColumns : List String :=
  ["asset", "entry_price", "current_price", "size", "leverage", "venue",
   "status", "liquidation_price", "opened_at", "updated_at", "last_reconciled_at"]

/-- Columns referenced by `_load_positions_from_db`'s recovery query
(`WHERE status NOT IN (...) ORDER BY opened_at DESC`). -/
def loadPositionsQueryColumns : List String :=
  ["status", "opened_at"]

/-- A SQL statement is accepted only when every column it names exists in
the table's schema; otherwise SQLite raises an OperationalError. -/
def sqlColumnsOk (schema cols : List String) : Bool :=
  cols.all (fun c => schema.contains c)

/-- Per-venue position data used by the allocation computations
(`get_open_positions()` results / `positions[venue]` dicts). -/
structure VenuePosition where
  size : ℚ
  current_price : ℚ
deriving DecidableEq

/-- One venue's entry in the allocation report. -/
structure AllocationEntry where
  target : ℚ
  actual : ℚ
  drift : ℚ
  notional_value : ℚ
deriving DecidableEq

/-- One venue's entry in `validate_allocation`'s report, which additionally
carries the `within_tolerance` flag. -/
structure ValidationEntry where
  target : ℚ
  actual : ℚ
  drift : ℚ
  notional_value : ℚ
  within_tolerance : Bool
deriving DecidableEq

/-- Signed notional used by `ExchangeReconciliationManager.validate_allocation`:
`sum(p.size * p.current_price for p in positions)` — no absolute value. -/
def signedNotional (ps : List VenuePosition) : ℚ :=
  (ps.map (fun p => p.size * p.current_price)).sum

/-- Absolute notional used by `UnifiedExchangeClient.get_allocation_status`:
`sum(abs(p["size"] * p["current_price"]) for p in positions)`. -/
def absNotional (ps : List VenuePosition) : ℚ :=
  (ps.map (fun p => |p.size * p.current_price|)).sum

/-- Share computation `(venue_notional / total) if total > 0 else 0`. -/
def actualShare (venue_notional total_notional : ℚ) : ℚ :=
  if total_notional > 0 then venue_notional / total_notional else 0

/-- `ExchangeReconciliationManager.validate_allocation` for the two venues:
notionals are signed sums, shares/drifts as in the code, tolerance flag is
`drift < 0.05`. -/
def validate_allocation (hl_ps cb_ps : List VenuePosition) (hl_target cb_target : ℚ) :
    ValidationEntry × ValidationEntry :=
  let hl_notional := signedNotional hl_ps
  let cb_notional := signedNotional cb_ps
  let total_notional := hl_notional + cb_notional
  let hl_actual := actualShare hl_notional total_notional
  let cb_actual := actualShare cb_notional total_notional
  let hl_drift := |hl_actual - hl_target|
  let cb_drift := |cb_actual - cb_target|
  ({ target := hl_target, actual := hl_actual, drift := hl_drift,
     notional_value := hl_notional, within_tolerance := decide (hl_drift < 1 / 20) },
   { target := cb_target, actual := cb_actual, drift := cb_drift,
     notional_value := cb_notional, within_tolerance := decide (cb_drift < 1 / 20) })

/-- `UnifiedExchangeClient.get_allocation_status` for the two venues:
notionals are sums of `abs(size * current_price)`; no tolerance flag. -/
def get_allocation_status (hl_ps cb_ps : List VenuePosition) (hl_target cb_target : ℚ) :
    AllocationEntry × AllocationEntry × ℚ :=
  let hl_notional := absNotional hl_ps
  let cb_notional := absNotional cb_ps
  let total_notional := hl_notional + cb_notional
  let hl_actual := actualShare hl_notional total_notional
  let cb_actual := actualShare cb_notional total_notional
  ({ target := hl_target, actual := hl_actual,
     drift := |hl_actual - hl_target|, notional_value := hl_notional },
   { target := cb_target, actual := cb_actual,
     drift := |cb_actual - cb_target|, notional_value := cb_notional },
   total_notional)

/-- Sum of the `partial_pnl` values recorded in `reduced` history writes. -/
def reducedPnlSum (ws : List StoreWrite) : ℚ :=
  (ws.map (fun w =>
    match w with
    | StoreWrite.historyInsert (HistoryEvent.reduced _ _ _ _ pnl _) => pnl
    | _ => 0)).sum

/-- Sum of the `realized_pnl` values recorded in `closed` history writes. -/
def closedPnlSum (ws : List StoreWrite) : ℚ :=
  (ws.map (fun w =>
    match w with
    | StoreWrite.historyInsert (HistoryEvent.closed _ _ pnl) => pnl
    | _ => 0)).sum

/-- Drive a sequence of `reduce_position` calls on one asset, all at the same
price, threading the ledger and accumulating the recorded partial PnLs. -/
def runReduces (l : Ledger) (asset : String) (amounts : List ℚ) (price : ℚ)
    (now : String) : Ledger × ℚ :=
  amounts.foldl
    (fun acc a =>
      let r := reduce_position acc.1 asset a price now
      (r.2.1, acc.2 + reducedPnlSum r.2.2))
    (l, 0)

/-! ## General lemmas about the ledger dictionary -/

theorem ledgerGet_singleton (k : String) (p : Position) :
    ledgerGet [(k, p)] k = some p := by
  simp [ledgerGet, List.find?]

theorem find?_map_replace (l : Ledger) (k : String) (v : Position)
    (hany : l.any (fun kv => kv.1 == k) = true) :
    (l.map (fun kv => if kv.1 == k then (k, v) else kv)).find? (fun kv => kv.1 == k)
      = some (k, v) := by
  induction l with
  | nil => simp at hany
  | cons hd tl ih =>
    by_cases h1 : (hd.1 == k) = true
    · simp only [List.map_cons, if_pos h1, List.find?_cons]
      simp
    · have h1f : (hd.1 == k) = false := Bool.eq_false_iff.mpr h1
      simp only [List.map_cons]
      rw [if_neg h1]
      simp only [List.find?_cons, h1f]
      apply ih
      simpa [List.any_cons, h1f] using hany

theorem find?_append_key (l : Ledger) (k : String) (v : Position)
    (hany : l.any (fun kv => kv.1 == k) = false) :
    (l ++ [(k, v)]).find? (fun kv => kv.1 == k) = some (k, v) := by
  induction l with
  | nil => simp [List.find?_cons]
  | cons hd tl ih =>
    have hsplit : (hd.1 == k) = false ∧ tl.any (fun kv => kv.1 == k) = false := by
      constructor
      · cases hb : (hd.1 == k) with
        | false => rfl
        | true => simp [List.any_cons, hb] at hany
      · cases hb : tl.any (fun kv => kv.1 == k) with
        | false => rfl
        | true => simp [List.any_cons, hb] at hany
    simp only [List.cons_append, List.find?_cons, hsplit.1]
    exact ih hsplit.2

theorem ledgerGet_dictInsert (l : Ledger) (k : String) (v : Position) :
    ledgerGet (dictInsert l k v) k = some v := by
  unfold dictInsert ledgerGet
  by_cases hany : l.any (fun kv => kv.1 == k) = true
  · rw [if_pos hany, find?_map_replace l k v hany]
    rfl
  · rw [if_neg hany, find?_append_key l k v (Bool.eq_false_iff.mpr hany)]
    rfl

/-! ## C1 — Store round-trip (schema mismatch) -/

/-- C1: the claimed Store round-trip is broken by the code itself: the
`positions` table created by `TradingDatabase._init_db` has no `status`
column, yet `add_position`'s INSERT names one (so every persist raises an
OperationalError) and `_load_positions_from_db`'s recovery query filters on
it (so every recovery fails and hydrates nothing). -/
theorem C1_positions_schema_mismatch :
    sqlColumnsOk positionsTableColumns addPositionInsertColumns = false ∧
    sqlColumnsOk positionsTableColumns loadPositionsQueryColumns = false ∧
    positionsTableColumns.contains "status" = false ∧
    addPositionInsertColumns.contains "status" = true ∧
    loadPositionsQueryColumns.contains "status" = true := by
  decide

/-! ## C2 — duplicate open is an upsert, not an error -/

/-- C2 counterexample: with an active BTC position of size 1 in the ledger,
`add_position` with a new BTC position of size 2 does not fail and does not
leave the existing entry unchanged — afterwards the active entry for BTC has
size 2. -/
theorem C2_counterexample :
    (ledgerGet (add_position [("BTC", mkPosition "BTC" 100 100 1 1 "hl")]
        (mkPosition "BTC" 200 200 2 1 "hl") "t").1 "BTC").map Position.size = some 2 ∧
    (2 : ℚ) ≠ 1 := by
  refine ⟨by decide, by norm_num⟩

/-- C2 amended: `add_position` is an add-or-update (upsert): even when an
active position already exists for the asset, the call succeeds, replaces
that entry with the (timestamp-stamped) new position, and issues an
`INSERT OR REPLACE` plus a history write; no `DuplicateAssetError` exists. -/
theorem C2_add_position_upsert (l : Ledger) (p old : Position) (now : String)
    (h : ledgerGet l p.asset = some old) :
    ledgerGet (add_position l p now).1 p.asset = some (stampPosition p now) ∧
    (add_position l p now).2 =
      [StoreWrite.positionsUpsert (stampPosition p now),
       StoreWrite.historyInsert
         (if pyFalsyStr p.last_reconciled_at then HistoryEvent.opened p.asset
          else HistoryEvent.updated p.asset)] := by
  exact ⟨ledgerGet_dictInsert l p.asset (stampPosition p now), rfl⟩

/-- C2 witness: the amended upsert statement at a concrete ledger holding an
active BTC position. -/
theorem C2_upsert_witness :
    ledgerGet (add_position [("BTC", mkPosition "BTC" 100 100 1 1 "hl")]
        (mkPosition "BTC" 200 200 2 1 "hl") "t").1 (mkPosition "BTC" 200 200 2 1 "hl").asset
      = some (stampPosition (mkPosition "BTC" 200 200 2 1 "hl") "t") ∧
    (add_position [("BTC", mkPosition "BTC" 100 100 1 1 "hl")]
        (mkPosition "BTC" 200 200 2 1 "hl") "t").2 =
      [StoreWrite.positionsUpsert (stampPosition (mkPosition "BTC" 200 200 2 1 "hl") "t"),
       StoreWrite.historyInsert
         (if pyFalsyStr (mkPosition "BTC" 200 200 2 1 "hl").last_reconciled_at then
            HistoryEvent.opened (mkPosition "BTC" 200 200 2 1 "hl").asset
          else HistoryEvent.updated (mkPosition "BTC" 200 200 2 1 "hl").asset)] :=
  C2_add_position_upsert [("BTC", mkPosition "BTC" 100 100 1 1 "hl")]
    (mkPosition "BTC" 200 200 2 1 "hl") (mkPosition "BTC" 100 100 1 1 "hl") "t" (by decide)

/-! ## C5 — close/reduce on an unknown asset -/

/-- C5: on an asset with no active ledger entry, `close_position` and
`reduce_position` report not-found (Python `None`, surfaced as HTTP 404 by
the endpoints — the spec's `PositionNotFoundError`), leave the ledger
unchanged, and issue no Store write at all. -/
theorem C5_not_found (l : Ledger) (asset : String)
    (close_price reduction_size reduction_price : ℚ) (now : String)
    (h : ledgerGet l asset = none) :
    close_position l asset close_price now = (none, l, []) ∧
    reduce_position l asset reduction_size reduction_price now = (none, l, []) ∧
    close_position_endpoint l asset close_price now =
      Except.error (HTTPError.notFound ("Position " ++ asset ++ " not found")) ∧
    reduce_position_endpoint l asset reduction_size reduction_price now =
      Except.error (HTTPError.notFound ("Position " ++ asset ++ " not found")) := by
  refine ⟨?_, ?_, ?_, ?_⟩ <;>
    simp [close_position, reduce_position, close_position_endpoint,
      reduce_position_endpoint, h]

/-- C5 witness: closing and reducing `DOGE` on the empty ledger. -/
theorem C5_not_found_witness :
    close_position [] "DOGE" 1 "t" = (none, [], []) ∧
    reduce_position [] "DOGE" 1 1 "t" = (none, [], []) ∧
    close_position_endpoint [] "DOGE" 1 "t" =
      Except.error (HTTPError.notFound ("Position " ++ "DOGE" ++ " not found")) ∧
    reduce_position_endpoint [] "DOGE" 1 1 "t" =
      Except.error (HTTPError.notFound ("Position " ++ "DOGE" ++ " not found")) :=
  C5_not_found [] "DOGE" 1 1 1 "t" rfl

/-! ## C10 — liquidation distance is total -/

/-- C10: `calculate_liquidation_distance` is total and never divides by
zero: when `liquidation_price` is `None` or `0`, or `current_price` is `0`,
it returns the sentinel `999.0` (so `is_liquidation_risk` is false for any
threshold ≤ 999); otherwise it returns
`((current_price - liquidation_price) / current_price) * 100`. -/
theorem C10_liquidation_distance_total (p : Position) (threshold_pct : ℚ) :
    ((p.liquidation_price = none ∨ p.liquidation_price = some 0 ∨ p.current_price = 0) →
      calculate_liquidation_distance p = 999 ∧
      (threshold_pct ≤ 999 → is_liquidation_risk p threshold_pct = false)) ∧
    (p.liquidation_price.getD 0 ≠ 0 → p.current_price ≠ 0 →
      calculate_liquidation_distance p =
        ((p.current_price - p.liquidation_price.getD 0) / p.current_price) * 100) := by
  constructor
  · intro h
    have hc : (pyFalsyRat p.liquidation_price || p.current_price == 0) = true := by
      rcases h with h | h | h
      · simp [pyFalsyRat, h]
      · simp [pyFalsyRat, h]
      · simp [h]
    have hd : calculate_liquidation_distance p = 999 := by
      simp [calculate_liquidation_distance, hc]
    refine ⟨hd, ?_⟩
    intro ht
    simp only [is_liquidation_risk, hd, decide_eq_false_iff_not]
    exact not_lt.2 ht
  · intro h1 h2
    have hfalsy : pyFalsyRat p.liquidation_price = false := by
      cases hl : p.liquidation_price with
      | none => simp [hl] at h1
      | some v =>
        simp [hl] at h1
        simp [pyFalsyRat, h1]
    have hc : (pyFalsyRat p.liquidation_price || p.current_price == 0) = false := by
      simp [hfalsy, h2]
    simp [calculate_liquidation_distance, hc]

/-- C10 witness: a position with no liquidation price gets distance 999 and
is never at risk at threshold 5; one with liquidation price 50 at current
price 100 gets distance 50. -/
theorem C10_liquidation_witness :
    calculate_liquidation_distance (mkPosition "BTC" 100 100 1 1 "hl") = 999 ∧
    is_liquidation_risk (mkPosition "BTC" 100 100 1 1 "hl") 5 = false ∧
    calculate_liquidation_distance
      { mkPosition "BTC" 100 100 1 1 "hl" with liquidation_price := some 50 } =
      ((100 - (some (50 : ℚ)).getD 0) / 100) * 100 := by
  refine ⟨?_, ?_, ?_⟩
  · exact ((C10_liquidation_distance_total (mkPosition "BTC" 100 100 1 1 "hl") 5).1
      (Or.inl rfl)).1
  · exact ((C10_liquidation_distance_total (mkPosition "BTC" 100 100 1 1 "hl") 5).1
      (Or.inl rfl)).2 (by norm_num)
  · exact (C10_liquidation_distance_total
      { mkPosition "BTC" 100 100 1 1 "hl" with liquidation_price := some 50 } 5).2
      (by decide) (by decide)

/-! ## C4 — reduce clamping -/

/-- C4 counterexample: for a short position of size −1, `reduce_position`
with amount 1/2 leaves size 0 (the clamp is to the signed `size`), whereas
the claimed clamp to `min(amount, |size|)` would leave
`−1 − min(1/2, |−1|) = −3/2`; the two disagree. -/
theorem C4_counterexample :
    (reduce_position [("BTC", mkPosition "BTC" 100 100 (-1) 1 "hl")]
        "BTC" (1 / 2) 100 "t").1.map Position.size = some 0 ∧
    (-1 : ℚ) - min (1 / 2) |(-1 : ℚ)| ≠ 0 := by
  constructor
  · simp only [reduce_position, ledgerGet_singleton]
    rw [if_pos (show (mkPosition "BTC" 100 100 (-1) 1 "hl").size < 1 / 2 by
      norm_num [mkPosition])]
    simp [mkPosition]
  · have h1 : |(-1 : ℚ)| = 1 := by norm_num
    have h2 : min (1 / 2 : ℚ) 1 = 1 / 2 := min_eq_left (by norm_num)
    rw [h1, h2]
    norm_num

/-- C4 amended: for every active position with positive size, reduce clamps
the amount to `min(amount, size)` (= `min(amount, |size|)`) without an
error, the remaining size is never negative, and the position transitions to
CLOSED when the remaining size reaches zero (in particular whenever
`amount > size`) and to REDUCED otherwise. -/
theorem C4_reduce_clamps_long (l : Ledger) (asset : String) (a price : ℚ)
    (now : String) (p : Position) (hget : ledgerGet l asset = some p)
    (hpos : 0 < p.size) :
    ∃ q, (reduce_position l asset a price now).1 = some q ∧
      q.size = p.size - min a |p.size| ∧
      0 ≤ q.size ∧
      (q.size = 0 → q.status = PositionStatus.closed) ∧
      (q.size ≠ 0 → q.status = PositionStatus.reduced) ∧
      (|p.size| < a → q.status = PositionStatus.closed) := by
  have habs : |p.size| = p.size := abs_of_pos hpos
  simp only [reduce_position, hget]
  by_cases hlt : a > p.size
  · rw [if_pos hlt]
    refine ⟨_, rfl, ?_, ?_, ?_, ?_, ?_⟩
    · simp only [habs]
      rw [min_eq_right (le_of_lt hlt)]
    · simp
    · intro _
      simp
    · intro hne
      exact absurd (by simp) hne
    · intro _
      simp
  · rw [if_neg hlt]
    have hle : a ≤ p.size := not_lt.mp hlt
    refine ⟨_, rfl, ?_, ?_, ?_, ?_, ?_⟩
    · simp only [habs]
      rw [min_eq_left hle]
    · simpa using sub_nonneg.mpr hle
    · intro hz
      simp only at hz
      simp [hz]
    · intro hne
      simp only at hne
      have hlt2 : 0 < p.size - a := lt_of_le_of_ne (sub_nonneg.mpr hle) (Ne.symm hne)
      simp [not_le.mpr hlt2]
    · intro hgt
      rw [habs] at hgt
      exact absurd hgt hlt

/-- C4 witness: reducing a long of size 1 by 2 clamps to 1 and closes the
position with remaining size 0. -/
theorem C4_reduce_clamps_long_witness :
    ∃ q, (reduce_position [("BTC", mkPosition "BTC" 100 100 1 1 "hl")]
        "BTC" 2 90 "t").1 = some q ∧
      q.size = (mkPosition "BTC" 100 100 1 1 "hl").size -
        min 2 |(mkPosition "BTC" 100 100 1 1 "hl").size| ∧
      0 ≤ q.size ∧
      (q.size = 0 → q.status = PositionStatus.closed) ∧
      (q.size ≠ 0 → q.status = PositionStatus.reduced) ∧
      (|(mkPosition "BTC" 100 100 1 1 "hl").size| < 2 →
        q.status = PositionStatus.closed) :=
  C4_reduce_clamps_long [("BTC", mkPosition "BTC" 100 100 1 1 "hl")] "BTC" 2 90 "t"
    (mkPosition "BTC" 100 100 1 1 "hl") (by decide) (by decide)

/-! ## C9 — reducing a short always closes it -/

/-- C9: for an active position with negative size and any positive requested
reduction, the clamp comparison `reduction_size > position.size` always
fires, so the amount is clamped to the signed size, the resulting size is
exactly 0, and the status becomes CLOSED — however small the request. -/
theorem C9_short_reduce_closes (l : Ledger) (asset : String) (a price : ℚ)
    (now : String) (p : Position) (hget : ledgerGet l asset = some p)
    (hshort : p.size < 0) (hpos : 0 < a) :
    ∃ q, (reduce_position l asset a price now).1 = some q ∧
      q.size = 0 ∧ q.status = PositionStatus.closed := by
  have hgt : p.size < a := lt_trans hshort hpos
  simp only [reduce_position, hget]
  rw [if_pos hgt]
  refine ⟨_, rfl, ?_, ?_⟩
  · simp
  · simp

/-- C9 witness: a short of size −1 reduced by 1/2 ends at size 0, CLOSED. -/
theorem C9_short_reduce_closes_witness :
    ∃ q, (reduce_position [("ETH", mkPosition "ETH" 100 100 (-1) 1 "hl")]
        "ETH" (1 / 2) 100 "t").1 = some q ∧
      q.size = 0 ∧ q.status = PositionStatus.closed :=
  C9_short_reduce_closes [("ETH", mkPosition "ETH" 100 100 (-1) 1 "hl")] "ETH"
    (1 / 2) 100 "t" (mkPosition "ETH" 100 100 (-1) 1 "hl") (by decide) (by decide)
    (by norm_num)

/-! ## Reconciliation lemmas -/

theorem reconcileEntry_size (ex : ExchangeSnapshot) (now a : String) (p : Position) :
    (reconcileEntry ex now a p).size = p.size := by
  unfold reconcileEntry
  cases h : snapshotGet ex a with
  | none => rfl
  | some ep =>
    by_cases hm : (size_match p ep && price_match p ep) = true <;>
      cases hpid : ep.position_id <;> simp [hm, hpid]

theorem reconcileEntry_current_price (ex : ExchangeSnapshot) (now a : String)
    (p : Position) :
    (reconcileEntry ex now a p).current_price = p.current_price := by
  unfold reconcileEntry
  cases h : snapshotGet ex a with
  | none => rfl
  | some ep =>
    by_cases hm : (size_match p ep && price_match p ep) = true <;>
      cases hpid : ep.position_id <;> simp [hm, hpid]

theorem reconcileEntry_last_reconciled (ex : ExchangeSnapshot) (now a : String)
    (p : Position) (ep : ExchangePos) (hex : snapshotGet ex a = some ep)
    (hm : (size_match p ep && price_match p ep) = true) :
    (reconcileEntry ex now a p).last_reconciled_at = some now := by
  unfold reconcileEntry
  rw [hex]
  cases hpid : ep.position_id <;> simp [hm, hpid]

theorem entrySynced_reconcileEntry (ex : ExchangeSnapshot) (now a : String)
    (p : Position) :
    entrySynced ex a (reconcileEntry ex now a p) = entrySynced ex a p := by
  cases h : snapshotGet ex a with
  | none => simp [entrySynced, h]
  | some ep =>
    simp [entrySynced, h, size_match, price_match, reconcileEntry_size,
      reconcileEntry_current_price]

theorem ledgerGet_map_entry (l : Ledger) (g : String → Position → Position)
    (a : String) :
    ledgerGet (l.map (fun kv => (kv.1, g kv.1 kv.2))) a = (ledgerGet l a).map (g a) := by
  unfold ledgerGet
  induction l with
  | nil => rfl
  | cons hd tl ih =>
    simp only [List.map_cons, List.find?_cons]
    cases h1 : (hd.1 == a) with
    | true =>
      have he : hd.1 = a := eq_of_beq h1
      subst he
      simp
    | false =>
      simp only [h1]
      exact ih

theorem ledgerContains_map_entry (l : Ledger) (g : String → Position → Position)
    (a : String) :
    ledgerContains (l.map (fun kv => (kv.1, g kv.1 kv.2))) a = ledgerContains l a := by
  unfold ledgerContains
  rw [List.any_map]
  rfl

theorem filter_fst_map_entry (l : Ledger) (g : String → Position → Position)
    (q : String → Position → Bool) (hq : ∀ k p, q k (g k p) = q k p) :
    ((l.map (fun kv => (kv.1, g kv.1 kv.2))).filter (fun kv => q kv.1 kv.2)).map
        (fun kv => kv.1)
      = (l.filter (fun kv => q kv.1 kv.2)).map (fun kv => kv.1) := by
  induction l with
  | nil => rfl
  | cons hd tl ih =>
    simp only [List.map_cons, List.filter_cons]
    by_cases hb : q hd.1 hd.2 = true
    · simp only [hq, hb, if_pos, List.map_cons, ih]
    · have hbf : q hd.1 hd.2 = false := Bool.eq_false_iff.mpr hb
      simp only [hq, hbf, Bool.false_eq_true, if_false, ih]

theorem mem_of_ledgerGet (l : Ledger) (a : String) (p : Position)
    (h : ledgerGet l a = some p) : (a, p) ∈ l := by
  unfold ledgerGet at h
  cases hf : l.find? (fun kv => kv.1 == a) with
  | none => rw [hf] at h; simp at h
  | some kv =>
    rw [hf] at h
    have hm : kv ∈ l := List.mem_of_find?_eq_some hf
    have hk := List.find?_some hf
    have h2 : kv.2 = p := by simpa using h
    have hkv : kv = (a, p) := by
      cases kv with
      | mk k v =>
        simp only [Prod.mk.injEq]
        exact ⟨eq_of_beq hk, h2⟩
    rw [hkv] at hm
    exact hm

theorem ledgerContains_eq_false (l : Ledger) (a : String)
    (h : ledgerGet l a = none) : ledgerContains l a = false := by
  unfold ledgerGet at h
  unfold ledgerContains
  cases hf : l.find? (fun kv => kv.1 == a) with
  | some kv => rw [hf] at h; simp at h
  | none =>
    rw [List.find?_eq_none] at hf
    simp only [List.any_eq_false]
    intro kv hkv
    exact hf kv hkv

/-! ## C3 — reconciliation is frame-preserving and idempotent -/

/-- C3: a reconciliation pass never changes any ledger entry's `size` or
`current_price` (it only annotates reconciliation fields), and running the
pass again on the annotated ledger with the same snapshot produces the
identical classification triple. -/
theorem C3_reconcile_frame_idempotent (l : Ledger) (ex : ExchangeSnapshot)
    (now now2 : String) (a : String) :
    ((ledgerGet (reconcile_with_exchange l ex now).2 a).map Position.size
      = (ledgerGet l a).map Position.size) ∧
    ((ledgerGet (reconcile_with_exchange l ex now).2 a).map Position.current_price
      = (ledgerGet l a).map Position.current_price) ∧
    ((reconcile_with_exchange (reconcile_with_exchange l ex now).2 ex now2).1
      = (reconcile_with_exchange l ex now).1) := by
  refine ⟨?_, ?_, ?_⟩
  · simp only [reconcile_with_exchange]
    rw [ledgerGet_map_entry]
    cases ledgerGet l a with
    | none => rfl
    | some p => simp [reconcileEntry_size]
  · simp only [reconcile_with_exchange]
    rw [ledgerGet_map_entry]
    cases ledgerGet l a with
    | none => rfl
    | some p => simp [reconcileEntry_current_price]
  · simp only [reconcile_with_exchange]
    refine congrArg₂ Prod.mk ?_ (congrArg₂ Prod.mk ?_ ?_)
    · exact filter_fst_map_entry l (reconcileEntry ex now)
        (fun k p => entrySynced ex k p)
        (fun k p => entrySynced_reconcileEntry ex now k p)
    · exact filter_fst_map_entry l (reconcileEntry ex now)
        (fun k p => !(entrySynced ex k p))
        (fun k p => by simp [entrySynced_reconcileEntry])
    · apply List.filter_congr
      intro x _
      rw [ledgerContains_map_entry]

/-! ## C6 — reconciliation classification -/

/-- C6: per active ledger asset against the merged snapshot: an asset absent
from the snapshot is classified into the drift list; one present within the
size tolerance 0.0001 and price tolerance 0.01 is classified synced and has
`last_reconciled_at` set to the pass timestamp; and a remote asset with no
ledger entry is reported in the missing-locally list without any position
being created for it. -/
theorem C6_reconcile_classification (l : Ledger) (ex : ExchangeSnapshot)
    (now : String) (a : String) (p : Position) (ep : ExchangePos) :
    (ledgerGet l a = some p → snapshotGet ex a = none →
      a ∈ (reconcile_with_exchange l ex now).1.2.1) ∧
    (ledgerGet l a = some p → snapshotGet ex a = some ep →
      |p.size - ep.size.getD 0| < 1 / 10000 →
      |p.current_price - ep.current_price.getD 0| < 1 / 100 →
      a ∈ (reconcile_with_exchange l ex now).1.1 ∧
      (ledgerGet (reconcile_with_exchange l ex now).2 a).map Position.last_reconciled_at
        = some (some now)) ∧
    (a ∈ ex.map (fun kv => kv.1) → ledgerGet l a = none →
      a ∈ (reconcile_with_exchange l ex now).1.2.2 ∧
      ledgerGet (reconcile_with_exchange l ex now).2 a = none) := by
  refine ⟨?_, ?_, ?_⟩
  · intro hget hex
    have hmem : (a, p) ∈ l := mem_of_ledgerGet l a p hget
    simp only [reconcile_with_exchange]
    refine List.mem_map.2 ⟨(a, p), List.mem_filter.2 ⟨hmem, ?_⟩, rfl⟩
    simp [entrySynced, hex]
  · intro hget hex hs hp
    have hmem : (a, p) ∈ l := mem_of_ledgerGet l a p hget
    have hsm : size_match p ep = true := by
      unfold size_match
      exact decide_eq_true hs
    have hpm : price_match p ep = true := by
      unfold price_match
      exact decide_eq_true hp
    have hsync : entrySynced ex a p = true := by
      unfold entrySynced
      rw [hex]
      show (size_match p ep && price_match p ep) = true
      rw [hsm, hpm]
      rfl
    constructor
    · simp only [reconcile_with_exchange]
      exact List.mem_map.2 ⟨(a, p), List.mem_filter.2 ⟨hmem, hsync⟩, rfl⟩
    · simp only [reconcile_with_exchange]
      rw [ledgerGet_map_entry, hget]
      show some ((reconcileEntry ex now a p).last_reconciled_at) = some (some now)
      rw [reconcileEntry_last_reconciled ex now a p ep hex (by rw [hsm, hpm]; rfl)]
  · intro hmem hnone
    have hcont : ledgerContains l a = false := ledgerContains_eq_false l a hnone
    constructor
    · simp only [reconcile_with_exchange]
      refine List.mem_filter.2 ⟨hmem, ?_⟩
      simp [hcont]
    · simp only [reconcile_with_exchange]
      rw [ledgerGet_map_entry, hnone]
      rfl

/-- C6 witness: a two-entry ledger against a snapshot in which BTC matches
within tolerance, SOL is absent remotely, and ETH exists only remotely. -/
theorem C6_reconcile_classification_witness :
    ("SOL" ∈ (reconcile_with_exchange
        [("BTC", mkPosition "BTC" 42000 42000 (1 / 2) 1 "A"),
         ("SOL", mkPosition "SOL" 100 100 1 1 "A")]
        [("BTC", ExchangePos.mk (some (1 / 2)) (some 42000) none),
         ("ETH", ExchangePos.mk (some 1) (some 5) none)] "t").1.2.1) ∧
    ("BTC" ∈ (reconcile_with_exchange
        [("BTC", mkPosition "BTC" 42000 42000 (1 / 2) 1 "A"),
         ("SOL", mkPosition "SOL" 100 100 1 1 "A")]
        [("BTC", ExchangePos.mk (some (1 / 2)) (some 42000) none),
         ("ETH", ExchangePos.mk (some 1) (some 5) none)] "t").1.1) ∧
    ("ETH" ∈ (reconcile_with_exchange
        [("BTC", mkPosition "BTC" 42000 42000 (1 / 2) 1 "A"),
         ("SOL", mkPosition "SOL" 100 100 1 1 "A")]
        [("BTC", ExchangePos.mk (some (1 / 2)) (some 42000) none),
         ("ETH", ExchangePos.mk (some 1) (some 5) none)] "t").1.2.2) ∧
    (ledgerGet (reconcile_with_exchange
        [("BTC", mkPosition "BTC" 42000 42000 (1 / 2) 1 "A"),
         ("SOL", mkPosition "SOL" 100 100 1 1 "A")]
        [("BTC", ExchangePos.mk (some (1 / 2)) (some 42000) none),
         ("ETH", ExchangePos.mk (some 1) (some 5) none)] "t").2 "ETH" = none) := by
  refine ⟨?_, ?_, ?_, ?_⟩
  · exact (C6_reconcile_classification _ _ "t" "SOL"
      (mkPosition "SOL" 100 100 1 1 "A")
      (ExchangePos.mk (some 1) (some 5) none)).1 rfl rfl
  · exact ((C6_reconcile_classification
      [("BTC", mkPosition "BTC" 42000 42000 (1 / 2) 1 "A"),
       ("SOL", mkPosition "SOL" 100 100 1 1 "A")]
      [("BTC", ExchangePos.mk (some (1 / 2)) (some 42000) none),
       ("ETH", ExchangePos.mk (some 1) (some 5) none)] "t" "BTC"
      (mkPosition "BTC" 42000 42000 (1 / 2) 1 "A")
      (ExchangePos.mk (some (1 / 2)) (some 42000) none)).2.1 rfl rfl
      (by norm_num [mkPosition]) (by norm_num [mkPosition])).1
  · exact ((C6_reconcile_classification
      [("BTC", mkPosition "BTC" 42000 42000 (1 / 2) 1 "A"),
       ("SOL", mkPosition "SOL" 100 100 1 1 "A")]
      [("BTC", ExchangePos.mk (some (1 / 2)) (some 42000) none),
       ("ETH", ExchangePos.mk (some 1) (some 5) none)] "t" "ETH"
      (mkPosition "SOL" 100 100 1 1 "A")
      (ExchangePos.mk (some 1) (some 5) none)).2.2 (by decide) rfl).1
  · exact ((C6_reconcile_classification
      [("BTC", mkPosition "BTC" 42000 42000 (1 / 2) 1 "A"),
       ("SOL", mkPosition "SOL" 100 100 1 1 "A")]
      [("BTC", ExchangePos.mk (some (1 / 2)) (some 42000) none),
       ("ETH", ExchangePos.mk (some 1) (some 5) none)] "t" "ETH"
      (mkPosition "SOL" 100 100 1 1 "A")
      (ExchangePos.mk (some 1) (some 5) none)).2.2 (by decide) rfl).2

/-! ## C7 — PnL telescoping -/

theorem reduce_step_spec (l : Ledger) (asset : String) (a c : ℚ) (now : String)
    (p : Position) (h : ledgerGet l asset = some p) :
    ∃ q, ledgerGet (reduce_position l asset a c now).2.1 asset = some q ∧
      q.entry_price = p.entry_price ∧
      reducedPnlSum (reduce_position l asset a c now).2.2 =
        (c - p.entry_price) * (p.size - q.size) := by
  simp only [reduce_position, h]
  refine ⟨_, ledgerGet_dictInsert _ _ _, rfl, ?_⟩
  simp only [reducedPnlSum, List.map_cons, List.map_nil, List.sum_cons, List.sum_nil]
  ring

theorem runReduces_fold_spec (asset : String) (c : ℚ) (now : String) :
    ∀ (amounts : List ℚ) (l : Ledger) (s : ℚ) (p : Position),
      ledgerGet l asset = some p →
      ∃ q, ledgerGet (amounts.foldl
          (fun acc a =>
            let r := reduce_position acc.1 asset a c now
            (r.2.1, acc.2 + reducedPnlSum r.2.2)) (l, s)).1 asset = some q ∧
        q.entry_price = p.entry_price ∧
        (amounts.foldl
          (fun acc a =>
            let r := reduce_position acc.1 asset a c now
            (r.2.1, acc.2 + reducedPnlSum r.2.2)) (l, s)).2
          = s + (c - p.entry_price) * (p.size - q.size) := by
  intro amounts
  induction amounts with
  | nil =>
    intro l s p h
    exact ⟨p, h, rfl, by simp⟩
  | cons a rest ih =>
    intro l s p h
    obtain ⟨q1, hq1, he1, hs1⟩ := reduce_step_spec l asset a c now p h
    obtain ⟨q, hq, he, hs⟩ := ih (reduce_position l asset a c now).2.1
      (s + reducedPnlSum (reduce_position l asset a c now).2.2) q1 hq1
    refine ⟨q, ?_, he.trans he1, ?_⟩
    · simp only [List.foldl_cons]
      exact hq
    · simp only [List.foldl_cons]
      exact hs.trans (by rw [he1, hs1]; ring)

/-- C7 amended: for a single-asset ledger, running any sequence of reduces
all priced at the final close price `c` and then closing at `c`, the sum of
recorded partial PnLs plus the recorded realized PnL telescopes to
`(c - entry_price) * original_size`. -/
theorem C7_pnl_telescoping_uniform (p : Position) (amounts : List ℚ) (c : ℚ)
    (now now2 : String) :
    (runReduces [(p.asset, p)] p.asset amounts c now).2 +
      closedPnlSum (close_position (runReduces [(p.asset, p)] p.asset amounts c now).1
        p.asset c now2).2.2
      = (c - p.entry_price) * p.size := by
  obtain ⟨q, hq, he, hs⟩ := runReduces_fold_spec p.asset c now amounts
    [(p.asset, p)] 0 p (ledgerGet_singleton p.asset p)
  have h1 : (runReduces [(p.asset, p)] p.asset amounts c now).2
      = 0 + (c - p.entry_price) * (p.size - q.size) := hs
  have h2 : ledgerGet (runReduces [(p.asset, p)] p.asset amounts c now).1 p.asset
      = some q := hq
  simp only [close_position, h2]
  simp only [closedPnlSum, List.map_cons, List.map_nil, List.sum_cons, List.sum_nil]
  rw [h1, he]
  ring

/-- C7 counterexample: open at entry 100 with size 1, reduce 1/2 at price
110 (partial PnL 5), close at 100 (realized PnL 0): the recorded total is 5,
but the claimed value `(final_price − entry_price) × original_size` is
`(100 − 100) × 1 = 0`. -/
theorem C7_counterexample :
    (runReduces [("BTC", mkPosition "BTC" 100 100 1 1 "hl")] "BTC" [1 / 2] 110 "t").2 +
      closedPnlSum (close_position
        (runReduces [("BTC", mkPosition "BTC" 100 100 1 1 "hl")] "BTC" [1 / 2] 110 "t").1
        "BTC" 100 "t2").2.2 = 5 ∧
    ((100 : ℚ) - 100) * 1 = 0 ∧
    (5 : ℚ) ≠ 0 := by
  refine ⟨?_, by norm_num, by norm_num⟩
  have hred : ¬((1 : ℚ) / 2 > (mkPosition "BTC" 100 100 1 1 "hl").size) := by
    norm_num [mkPosition]
  simp only [runReduces, List.foldl_cons, List.foldl_nil, reduce_position,
    ledgerGet_singleton]
  rw [if_neg hred]
  simp only [close_position, ledgerGet_dictInsert]
  simp only [reducedPnlSum, closedPnlSum, List.map_cons, List.map_nil,
    List.sum_cons, List.sum_nil]
  norm_num [mkPosition]

/-! ## C8 — allocation status -/

theorem absNotional_eq_of_nonneg (ps : List VenuePosition)
    (h : ∀ q ∈ ps, 0 ≤ q.current_price) :
    absNotional ps = (ps.map (fun q => |q.size| * q.current_price)).sum := by
  induction ps with
  | nil => rfl
  | cons hd tl ih =>
    simp only [absNotional, List.map_cons, List.sum_cons] at ih ⊢
    rw [abs_mul, abs_of_nonneg (h hd (List.mem_cons_self hd tl)),
      ih (fun q hq => h q (List.mem_cons_of_mem hd hq))]

/-- C8 counterexample: a venue holding one short (size −1 at price 100):
`validate_allocation` computes the venue notional as the signed sum
`size × current_price = −100`, not `Σ(|size| × current_price) = 100` as
claimed. -/
theorem C8_counterexample :
    (validate_allocation [VenuePosition.mk (-1) 100] [] (4 / 5) (1 / 5)).1.notional_value
      = -100 ∧
    (([VenuePosition.mk (-1) 100] : List VenuePosition).map
      (fun q => |q.size| * q.current_price)).sum = 100 ∧
    (-100 : ℚ) ≠ 100 := by
  refine ⟨?_, ?_, by norm_num⟩
  · norm_num [validate_allocation, signedNotional, actualShare]
  · norm_num

/-- C8 amended: `get_allocation_status` computes each venue's notional as
`Σ|size × current_price|`, which equals `Σ(|size| × current_price)` whenever
prices are nonnegative; the actual share is the venue notional over the
total (0 when the total is not positive) and drift is `|actual − target|`;
the `within_tolerance` flag (computed by `validate_allocation`, whose
notionals are the signed sums `Σ size × current_price`) holds exactly when
that function's drift is < 0.05. -/
theorem C8_allocation_spec (hl_ps cb_ps : List VenuePosition)
    (hl_target cb_target : ℚ)
    (h1 : ∀ q ∈ hl_ps, 0 ≤ q.current_price)
    (h2 : ∀ q ∈ cb_ps, 0 ≤ q.current_price) :
    ((get_allocation_status hl_ps cb_ps hl_target cb_target).1.notional_value
      = (hl_ps.map (fun q => |q.size| * q.current_price)).sum) ∧
    ((get_allocation_status hl_ps cb_ps hl_target cb_target).2.1.notional_value
      = (cb_ps.map (fun q => |q.size| * q.current_price)).sum) ∧
    ((get_allocation_status hl_ps cb_ps hl_target cb_target).1.actual
      = actualShare (absNotional hl_ps) (absNotional hl_ps + absNotional cb_ps)) ∧
    ((get_allocation_status hl_ps cb_ps hl_target cb_target).1.drift
      = |(get_allocation_status hl_ps cb_ps hl_target cb_target).1.actual - hl_target|) ∧
    ((validate_allocation hl_ps cb_ps hl_target cb_target).1.within_tolerance = true
      ↔ (validate_allocation hl_ps cb_ps hl_target cb_target).1.drift < 1 / 20) := by
  refine ⟨?_, ?_, rfl, rfl, ?_⟩
  · exact absNotional_eq_of_nonneg hl_ps h1
  · exact absNotional_eq_of_nonneg cb_ps h2
  · simp only [validate_allocation, decide_eq_true_eq]

/-- C8 witness: the amended allocation statement at a concrete two-venue
portfolio (a long of notional 20 and a short of absolute notional 20). -/
theorem C8_allocation_spec_witness :
    ((get_allocation_status [VenuePosition.mk 2 10] [VenuePosition.mk (-1) 20]
        (4 / 5) (1 / 5)).1.notional_value
      = (([VenuePosition.mk 2 10] : List VenuePosition).map
          (fun q => |q.size| * q.current_price)).sum) ∧
    ((get_allocation_status [VenuePosition.mk 2 10] [VenuePosition.mk (-1) 20]
        (4 / 5) (1 / 5)).2.1.notional_value
      = (([VenuePosition.mk (-1) 20] : List VenuePosition).map
          (fun q => |q.size| * q.current_price)).sum) ∧
    ((get_allocation_status [VenuePosition.mk 2 10] [VenuePosition.mk (-1) 20]
        (4 / 5) (1 / 5)).1.actual
      = actualShare (absNotional [VenuePosition.mk 2 10])
          (absNotional [VenuePosition.mk 2 10] + absNotional [VenuePosition.mk (-1) 20])) ∧
    ((get_allocation_status [VenuePosition.mk 2 10] [VenuePosition.mk (-1) 20]
        (4 / 5) (1 / 5)).1.drift
      = |(get_allocation_status [VenuePosition.mk 2 10] [VenuePosition.mk (-1) 20]
          (4 / 5) (1 / 5)).1.actual - 4 / 5|) ∧
    ((validate_allocation [VenuePosition.mk 2 10] [VenuePosition.mk (-1) 20]
        (4 / 5) (1 / 5)).1.within_tolerance = true
      ↔ (validate_allocation [VenuePosition.mk 2 10] [VenuePosition.mk (-1) 20]
          (4 / 5) (1 / 5)).1.drift < 1 / 20) :=
  C8_allocation_spec [VenuePosition.mk 2 10] [VenuePosition.mk (-1) 20] (4 / 5) (1 / 5)
    (by intro q hq; simp at hq; rw [hq]; norm_num)
    (by intro q hq; simp at hq; rw [hq]; norm_num)

end RRRv1
